import Mathlib

/-!
Verification of `src/currency_bot.py`, a Telegram currency-rate bot.

The program is embedded shallowly:

* Python `float` rates are modelled as rationals (`ℚ`); concrete rate
  literals are built with `mkRat` so that they evaluate in the kernel.
* A Python dict used as a rate snapshot is modelled as an association
  list `List (String × ℚ)`; `dict.get` is `List.lookup` (dict keys are
  unique, so first-match lookup agrees with dict lookup).
* Python truthiness is modelled explicitly: `None` and the empty dict
  are falsy (`rates_command`'s `if not rates:`), a numeric rate is falsy
  exactly when it is zero (`if rate:`), a string is falsy exactly when
  it is empty (`main`'s `if not token:`).
* Each command handler is a pure function from its inputs to the list
  of effects (outbound messages, outbound HTTP) it performs, in order.
* `f"{rate:.4f}"` is modelled by rounding `rate * 10000` to the nearest
  integer, ties to even (the rounding used by Python float formatting),
  then printing the integer part, a dot, and exactly four fractional
  digits.
-/

namespace CurrencyBot

/-! ## Currency catalog (`CURRENCIES`, lines 24-31) -/

/-- Display metadata of one catalog entry: the `name` and `flag` values of
the inner dicts of `CURRENCIES`. -/
structure CurrencyInfo where
  name : String
  flag : String
deriving DecidableEq, Repr

/-- The module-level `CURRENCIES` dict, in its insertion (= iteration)
order. -/
def CURRENCIES : List (String × CurrencyInfo) :=
  [ ("CNY", ⟨"Китайский юань", "🇨🇳"⟩),
    ("KZT", ⟨"Казахстанский тенге", "🇰🇿"⟩),
    ("RUB", ⟨"Российский рубль", "🇷🇺"⟩),
    ("UAH", ⟨"Украинская гривна", "🇺🇦"⟩),
    ("EUR", ⟨"Евро", "🇪🇺"⟩),
    ("GBP", ⟨"Британский фунт", "🇬🇧"⟩) ]

/-- A rate snapshot: the parsed `rates` JSON object, a mapping from
currency code to numeric rate (dict modelled as an association list). -/
abbrev RateSnapshot := List (String × ℚ)

/-- `rates.get(code)` (line 91): dict lookup returning `None` when the
key is absent. -/
def lookupRate (rates : RateSnapshot) (code : String) : Option ℚ :=
  rates.lookup code

/-! ## Rendering of `f"{rate:.4f}"` -/

/-- The decimal digit character for `n < 10`. -/
def digitChar (n : Nat) : Char := Char.ofNat (48 + n)

/-- Digits of `n` in base 10, most significant first, with explicit fuel
(structural recursion; fuel `n+1` always suffices). -/
def natDigits : Nat → Nat → List Char
  | 0, _ => []
  | fuel + 1, n =>
    if n < 10 then [digitChar n]
    else natDigits fuel (n / 10) ++ [digitChar (n % 10)]

/-- Decimal rendering of a natural number. -/
def natToString (n : Nat) : String := String.mk (natDigits (n + 1) n)

/-- `n % 10000` rendered as exactly four decimal digits (the fractional
part of a `%.4f` rendering). -/
def pad4 (n : Nat) : String :=
  String.mk [digitChar (n / 1000 % 10), digitChar (n / 100 % 10),
             digitChar (n / 10 % 10), digitChar (n % 10)]

/-- Round `a / d` (of naturals, `d ≠ 0`) to the nearest integer, ties to
even — the rounding Python applies when formatting a float with `.4f`. -/
def roundHalfEvenNat (a d : Nat) : Nat :=
  let q := a / d
  let r := a % d
  if 2 * r < d then q
  else if d < 2 * r then q + 1
  else if q % 2 = 0 then q else q + 1

/-- The Python f-string fragment `f"{rate:.4f}"`: the rate rounded to
four decimal places (ties to even), rendered with exactly four digits
after the decimal point. -/
def formatRate (q : ℚ) : String :=
  (if q.num < 0 then "-" else "") ++
  natToString (roundHalfEvenNat (q.num.natAbs * 10000) q.den / 10000) ++ "." ++
  pad4 (roundHalfEvenNat (q.num.natAbs * 10000) q.den % 10000)

/-! ## The message built by `rates_command` (lines 86-97) -/

/-- The header of the rates message (line 88): bold base-currency label
plus the formatting timestamp `now`. -/
def headerLine (now : String) : String :=
  "💵 <b>Курс доллара США (USD)</b>\n🕐 " ++ now ++ "\n\n"

/-- The block appended for an entry whose rate is available (line 95):
flag, bold name, and the `1 USD = <rate> <code>` line. -/
def availableBlock (code : String) (info : CurrencyInfo) (rate : ℚ) : String :=
  info.flag ++ " <b>" ++ info.name ++ "</b>\n1 USD = " ++ formatRate rate ++
    " " ++ code ++ "\n\n"

/-- The block appended for an entry whose rate is missing or falsy
(line 97): flag and plain (unbolded) name with the unavailable notice. -/
def unavailableBlock (info : CurrencyInfo) : String :=
  info.flag ++ " " ++ info.name ++ ": данные недоступны\n\n"

/-- One iteration of the loop of lines 90-97: `rate = rates.get(code)`
followed by the truthiness test `if rate:` (a present rate equal to `0`
is falsy and renders as unavailable). -/
def entryBlock (rates : RateSnapshot) (code : String) (info : CurrencyInfo) :
    String :=
  match lookupRate rates code with
  | some rate => if rate = 0 then unavailableBlock info
                 else availableBlock code info rate
  | none => unavailableBlock info

/-- The full message accumulated by `message += ...` over the catalog
loop (lines 88-97). -/
def buildRatesMessage (rates : RateSnapshot) (now : String) : String :=
  CURRENCIES.foldl (fun msg e => msg ++ entryBlock rates e.1 e.2)
    (headerLine now)

/-! ## Effects and command handlers -/

/-- An observable effect of a handler, in execution order: an outbound
plain-text message (`reply_text`), an outbound HTML message
(`reply_html`), or an outbound HTTP GET (issued inside
`get_exchange_rates`). -/
inductive Effect where
  | sendText (body : String)
  | sendHtml (body : String)
  | httpGet (url : String)
deriving DecidableEq, Repr

/-- Whether an effect is an outbound message (either flavour of reply). -/
def Effect.isSend : Effect → Bool
  | .sendText _ => true
  | .sendHtml _ => true
  | .httpGet _ => false

/-- Whether an effect is an outbound HTML message. -/
def Effect.isHtml : Effect → Bool
  | .sendHtml _ => true
  | _ => false

/-- The outbound messages of an effect trace, in order. -/
def sends (es : List Effect) : List Effect := es.filter Effect.isSend

/-- The caller identity a handler sees (`update.effective_user`). -/
structure User where
  first_name : String
deriving DecidableEq, Repr

/-- The fixed endpoint queried by `get_exchange_rates` (line 38). -/
def apiUrl : String := "https://api.exchangerate-api.com/v4/latest/USD"

/-- The `welcome_text` of `start` (lines 51-57). -/
def welcomeText (u : User) : String :=
  "Привет, " ++ u.first_name ++ "! 👋\n\n" ++
  "Я помогу узнать актуальный курс доллара США к разным валютам.\n\n" ++
  "📊 Доступные команды:\n" ++
  "/rates - Показать все курсы\n" ++
  "/help - Справка"

/-- The `/start` handler (lines 48-58): builds the greeting from the
caller's first name and sends it as one plain-text reply. -/
def start (u : User) : List Effect :=
  [Effect.sendText (welcomeText u)]

/-- The `help_text` of `help_command` (lines 63-70). -/
def helpText : String :=
  "💱 <b>Бот курсов валют</b>\n\n" ++
  "Команды:\n" ++
  "/rates - Показать актуальные курсы доллара США\n" ++
  "/start - Начать работу\n" ++
  "/help - Эта справка\n\n" ++
  "Данные обновляются в реальном времени с помощью API exchangerate-api.com"

/-- The `/help` handler (lines 61-71): sends the static reference as one
HTML reply; it does not look at the caller. -/
def help_command (_u : User) : List Effect :=
  [Effect.sendHtml helpText]

/-- The acknowledgment sent by `rates_command` before fetching (line 76). -/
def ackText : String := "⏳ Получаю актуальные курсы..."

/-- The fetch-failure apology of `rates_command` (lines 81-83). -/
def apologyText : String := "❌ Не удалось получить данные о курсах. Попробуйте позже."

/-- The `/rates` handler (lines 74-99), parametrised by the result of
`get_exchange_rates` (`none` = the fetcher returned `None`) and by the
formatted current time `now`. It sends the acknowledgment, performs the
fetch, and then tests `if not rates:` — under which both `None` and an
empty dict are falsy — sending the apology in the falsy case and the
formatted table otherwise. -/
def rates_command (fetchRes : Option RateSnapshot) (now : String) :
    List Effect :=
  [Effect.sendText ackText, Effect.httpGet apiUrl] ++
  match fetchRes with
  | none => [Effect.sendText apologyText]
  | some rates =>
    if rates.isEmpty then [Effect.sendText apologyText]
    else [Effect.sendHtml (buildRatesMessage rates now)]

/-! ## The rate fetcher `get_exchange_rates` (lines 34-45) -/

/-- A JSON value, as produced by `response.json()`. -/
inductive Json where
  | null
  | bool (b : Bool)
  | num (q : ℚ)
  | str (s : String)
  | arr (elems : List Json)
  | obj (fields : List (String × Json))

/-- The outcome of `requests.get(url, timeout=10)` as the fetcher can
observe it: the call raised (network error, timeout, ...), or a response
arrived with a status code and a body that either parses as JSON or does
not (`response.json()` raises on a malformed body, modelled as `none`). -/
inductive HttpWorld where
  | netError
  | response (status : Nat) (body : Option Json)

/-- `data.get("rates", {})` (line 42): defined only when `data` is a
JSON object (on any other shape the attribute access raises, modelled as
`none`); when the key is absent the default empty object is returned. -/
def jsonGetRates : Json → Option Json
  | .obj fields => some ((fields.lookup "rates").getD (.obj []))
  | _ => none

/-- `get_exchange_rates` (lines 34-45): one GET, `raise_for_status`,
JSON parse, and extraction of the nested `rates` object, with every
exception caught by the `try/except` and turned into `None`. It is a
total function: no exception escapes its boundary.
`response.raise_for_status()` raises `HTTPError` exactly for client and
server error statuses, `400 <= status < 600`; any other status (including
unusual ones such as 999) proceeds to `response.json()`. -/
def get_exchange_rates (w : HttpWorld) : Option Json :=
  match w with
  | .netError => none
  | .response status body =>
    if 400 ≤ status ∧ status < 600 then none
    else
      match body with
      | none => none
      | some data => jsonGetRates data

/-! ## Bootstrap `main` (lines 102-120) -/

/-- The state `main` reaches when startup succeeds: the command names
registered (in registration order) and whether `run_polling` was
entered. -/
structure BotState where
  handlers : List String
  pollingStarted : Bool
deriving DecidableEq, Repr

/-- The startup error message of `main` (lines 106-108). -/
def tokenErrorMsg : String :=
  "❌ Не найден токен! Установите переменную окружения TELEGRAM_BOT_TOKEN"

/-- `main` (lines 102-120), parametrised by the result of
`os.getenv("TELEGRAM_BOT_TOKEN")`. Python's `if not token:` treats both
an unset variable (`None`) and a variable set to the empty string as
falsy; in that case a `RuntimeError` aborts startup before any handler
is registered and before polling starts. Otherwise the three handlers
are registered and the polling loop is entered. -/
def main (token : Option String) : Except String BotState :=
  match token with
  | none => .error tokenErrorMsg
  | some t =>
    if t.isEmpty then .error tokenErrorMsg
    else .ok { handlers := ["start", "help", "rates"], pollingStarted := true }

/-! ## Generic helpers about string containment and concatenation -/

/-- `needle` occurs contiguously inside `hay` (Python's `needle in hay`). -/
def containsStr (hay needle : String) : Prop :=
  needle.data <:+: hay.data

instance (hay needle : String) : Decidable (containsStr hay needle) :=
  inferInstanceAs (Decidable (needle.data <:+: hay.data))

/-- Concatenation of the strings produced from each element of a list,
in list order. -/
def concatMap (f : α → String) : List α → String
  | [] => ""
  | x :: xs => f x ++ concatMap f xs

theorem foldl_append_concatMap (f : α → String) :
    ∀ (l : List α) (init : String),
      l.foldl (fun m x => m ++ f x) init = init ++ concatMap f l
  | [], init => (String.append_empty init).symm
  | x :: xs, init => by
    rw [List.foldl_cons, foldl_append_concatMap f xs (init ++ f x),
      concatMap, String.append_assoc]

theorem concatMap_append (f : α → String) (l₁ l₂ : List α) :
    concatMap f (l₁ ++ l₂) = concatMap f l₁ ++ concatMap f l₂ := by
  induction l₁ with
  | nil => rw [List.nil_append, concatMap, String.empty_append]
  | cons x xs ih => rw [List.cons_append, concatMap, concatMap, ih,
      String.append_assoc]

theorem concatMap_congr {f g : α → String} :
    ∀ {l : List α}, (∀ x ∈ l, f x = g x) → concatMap f l = concatMap g l
  | [], _ => rfl
  | x :: xs, h => by
    rw [concatMap, concatMap, h x (List.mem_cons_self x xs),
      concatMap_congr fun y hy => h y (List.mem_cons_of_mem x hy)]

theorem containsStr_refl (s : String) : containsStr s s :=
  ⟨[], [], by rw [List.append_nil, List.nil_append]⟩

theorem containsStr_middle (a n b : String) : containsStr (a ++ (n ++ b)) n :=
  ⟨a.data, b.data, by rw [String.data_append, String.data_append,
    List.append_assoc]⟩

theorem containsStr_append_left (s : String) {t n : String}
    (h : containsStr t n) : containsStr (s ++ t) n := by
  obtain ⟨x, y, hxy⟩ := h
  exact ⟨s.data ++ x, y, by rw [String.data_append, ← hxy]; simp⟩

theorem containsStr_append_right (s : String) {t n : String}
    (h : containsStr t n) : containsStr (t ++ s) n := by
  obtain ⟨x, y, hxy⟩ := h
  exact ⟨x, y ++ s.data, by rw [String.data_append, ← hxy]; simp⟩

theorem containsStr_right_self (a n : String) : containsStr (a ++ n) n :=
  ⟨a.data, [], by rw [List.append_nil, String.data_append]⟩

theorem containsStr_trans {a b c : String} (hab : containsStr a b)
    (hbc : containsStr b c) : containsStr a c :=
  List.IsInfix.trans hbc hab

theorem concatMap_containsStr (f : α → String) {x : α} :
    ∀ {l : List α}, x ∈ l → containsStr (concatMap f l) (f x)
  | y :: ys, h => by
    rcases List.mem_cons.mp h with h | h
    · subst h
      exact containsStr_append_right (concatMap f ys) (containsStr_refl (f x))
    · exact containsStr_append_left (f y) (concatMap_containsStr f h)

/-! ## Structural lemmas about the rates message -/

theorem buildRatesMessage_eq_concatMap (rates : RateSnapshot) (now : String) :
    buildRatesMessage rates now =
      headerLine now ++ concatMap (fun e => entryBlock rates e.1 e.2) CURRENCIES :=
  foldl_append_concatMap _ CURRENCIES (headerLine now)

theorem headerLine_containsStr (rates : RateSnapshot) (now : String) :
    containsStr (buildRatesMessage rates now) (headerLine now) := by
  rw [buildRatesMessage_eq_concatMap]
  exact containsStr_append_right _ (containsStr_refl _)

theorem entryBlock_containsStr {code : String} {info : CurrencyInfo}
    (rates : RateSnapshot) (now : String) (h : (code, info) ∈ CURRENCIES) :
    containsStr (buildRatesMessage rates now) (entryBlock rates code info) := by
  rw [buildRatesMessage_eq_concatMap]
  exact containsStr_append_left _
    (concatMap_containsStr (fun e => entryBlock rates e.1 e.2) h)

theorem entryBlock_ext {r₁ r₂ : RateSnapshot} (code : String)
    (info : CurrencyInfo) (h : lookupRate r₁ code = lookupRate r₂ code) :
    entryBlock r₁ code info = entryBlock r₂ code info := by
  unfold entryBlock
  rw [h]

theorem buildRatesMessage_ext {r₁ r₂ : RateSnapshot} (now : String)
    (h : ∀ c, lookupRate r₁ c = lookupRate r₂ c) :
    buildRatesMessage r₁ now = buildRatesMessage r₂ now := by
  rw [buildRatesMessage_eq_concatMap, buildRatesMessage_eq_concatMap]
  exact congrArg _ (concatMap_congr fun e _ => entryBlock_ext e.1 e.2 (h e.1))

/-! ## Character-level facts about the rate rendering -/

theorem digitChar_safe : ∀ k < 10, digitChar k ≠ '<' ∧ digitChar k ≠ '>' := by
  decide

theorem natDigits_chars :
    ∀ (fuel n : Nat), ∀ c ∈ natDigits fuel n, ∃ k, k < 10 ∧ c = digitChar k
  | 0, n => by intro c hc; simp [natDigits] at hc
  | fuel + 1, n => by
    intro c hc
    rw [natDigits] at hc
    by_cases h : n < 10
    · rw [if_pos h] at hc
      rcases List.mem_singleton.mp hc with rfl
      exact ⟨n, h, rfl⟩
    · rw [if_neg h] at hc
      rcases List.mem_append.mp hc with hc | hc
      · exact natDigits_chars fuel (n / 10) c hc
      · rcases List.mem_singleton.mp hc with rfl
        exact ⟨n % 10, Nat.mod_lt _ (by norm_num), rfl⟩

theorem pad4_chars (n : Nat) :
    ∀ c ∈ (pad4 n).data, ∃ k, k < 10 ∧ c = digitChar k := by
  intro c hc
  have hd : (pad4 n).data =
      [digitChar (n / 1000 % 10), digitChar (n / 100 % 10),
       digitChar (n / 10 % 10), digitChar (n % 10)] := rfl
  rw [hd] at hc
  have h10 : (0 : Nat) < 10 := by norm_num
  simp only [List.mem_cons, List.not_mem_nil, or_false] at hc
  rcases hc with rfl | rfl | rfl | rfl
  on_goal 1 => exact ⟨n / 1000 % 10, Nat.mod_lt _ h10, rfl⟩
  on_goal 1 => exact ⟨n / 100 % 10, Nat.mod_lt _ h10, rfl⟩
  on_goal 1 => exact ⟨n / 10 % 10, Nat.mod_lt _ h10, rfl⟩
  on_goal 1 => exact ⟨n % 10, Nat.mod_lt _ h10, rfl⟩

theorem formatRate_chars (q : ℚ) :
    ∀ c ∈ (formatRate q).data, c ≠ '<' ∧ c ≠ '>' := by
  intro c hc
  rw [formatRate, String.data_append, String.data_append,
    String.data_append] at hc
  rcases List.mem_append.mp hc with hc | hc
  · rcases List.mem_append.mp hc with hc | hc
    · rcases List.mem_append.mp hc with hc | hc
      · by_cases hq : q.num < 0
        · rw [if_pos hq] at hc
          rcases List.mem_singleton.mp hc with rfl
          exact ⟨by decide, by decide⟩
        · rw [if_neg hq] at hc
          exact absurd hc (List.not_mem_nil c)
      · obtain ⟨k, hk, rfl⟩ := natDigits_chars _ _ c hc
        exact digitChar_safe k hk
    · rcases List.mem_singleton.mp hc with rfl
      exact ⟨by decide, by decide⟩
  · obtain ⟨k, hk, rfl⟩ := pad4_chars _ c hc
    exact digitChar_safe k hk

/-! ## Decompositions exposing the markup structure of the blocks -/

theorem availableBlock_decomp (code : String) (info : CurrencyInfo) (q : ℚ) :
    availableBlock code info q =
      (info.flag ++ " ") ++ (("<b>" ++ (info.name ++ "</b>")) ++
        ("\n1 USD = " ++ (formatRate q ++ (" " ++ (code ++ "\n\n"))))) := by
  have h1 : (" <b>" : String).data = (" " : String).data ++ ("<b>" : String).data := by
    decide
  have h2 : ("</b>\n1 USD = " : String).data =
      ("</b>" : String).data ++ ("\n1 USD = " : String).data := by decide
  apply String.ext
  simp only [availableBlock, String.data_append, h1, h2, List.append_assoc]
  simp [List.cons_append, List.nil_append]

theorem headerLine_decomp (now : String) :
    headerLine now = "💵 " ++ ("<b>Курс доллара США (USD)</b>" ++
      ("\n🕐 " ++ (now ++ "\n\n"))) := by
  have h1 : ("💵 <b>Курс доллара США (USD)</b>\n🕐 " : String).data =
      ("💵 " : String).data ++ (("<b>Курс доллара США (USD)</b>" : String).data ++
        ("\n🕐 " : String).data) := by decide
  apply String.ext
  simp only [headerLine, String.data_append, h1, List.append_assoc]
  simp [List.cons_append, List.nil_append]

theorem entryBlock_of_none {rates : RateSnapshot} {code : String}
    (info : CurrencyInfo) (h : lookupRate rates code = none) :
    entryBlock rates code info = unavailableBlock info := by
  simp only [entryBlock, h]

theorem entryBlock_of_some {rates : RateSnapshot} {code : String} {q : ℚ}
    (info : CurrencyInfo) (h : lookupRate rates code = some q) (hq : q ≠ 0) :
    entryBlock rates code info = availableBlock code info q := by
  simp only [entryBlock, h]
  rw [if_neg hq]

theorem headerLine_bold (now : String) :
    containsStr (headerLine now) "<b>Курс доллара США (USD)</b>" := by
  rw [headerLine_decomp]
  exact containsStr_middle _ _ _

theorem availableBlock_bold_name (code : String) (info : CurrencyInfo) (q : ℚ) :
    containsStr (availableBlock code info q) ("<b>" ++ (info.name ++ "</b>")) := by
  rw [availableBlock_decomp]
  exact containsStr_middle _ _ _

/-! ## Claims -/

set_option maxRecDepth 40000

/-- Claim C4: for the snapshot mapping CNY to 7.1234 and EUR to 0.9, the
formatted table shows `1 USD = 7.1234 CNY` under the CNY entry (flag and
bold name), `1 USD = 0.9000 EUR` under the EUR entry, and a
"данные недоступны" (data unavailable) line for each of KZT, RUB, UAH
and GBP. -/
theorem C4_example_snapshot :
    containsStr
      (buildRatesMessage [("CNY", mkRat 71234 10000), ("EUR", mkRat 9 10)]
        "07.10.2025 12:00")
      "🇨🇳 <b>Китайский юань</b>\n1 USD = 7.1234 CNY" ∧
    containsStr
      (buildRatesMessage [("CNY", mkRat 71234 10000), ("EUR", mkRat 9 10)]
        "07.10.2025 12:00")
      "🇪🇺 <b>Евро</b>\n1 USD = 0.9000 EUR" ∧
    containsStr
      (buildRatesMessage [("CNY", mkRat 71234 10000), ("EUR", mkRat 9 10)]
        "07.10.2025 12:00")
      "🇰🇿 Казахстанский тенге: данные недоступны" ∧
    containsStr
      (buildRatesMessage [("CNY", mkRat 71234 10000), ("EUR", mkRat 9 10)]
        "07.10.2025 12:00")
      "🇷🇺 Российский рубль: данные недоступны" ∧
    containsStr
      (buildRatesMessage [("CNY", mkRat 71234 10000), ("EUR", mkRat 9 10)]
        "07.10.2025 12:00")
      "🇺🇦 Украинская гривна: данные недоступны" ∧
    containsStr
      (buildRatesMessage [("CNY", mkRat 71234 10000), ("EUR", mkRat 9 10)]
        "07.10.2025 12:00")
      "🇬🇧 Британский фунт: данные недоступны" := by
  decide

/-- Claim C5 as stated is false in its status leg: `raise_for_status`
raises only for statuses 400-599, so for the non-success status 999 with
a well-formed body the fetcher does not return a failure signal — it
returns the nested rates mapping. -/
theorem C5_claim_false :
    get_exchange_rates (HttpWorld.response 999
        (some (Json.obj [("rates", Json.obj [("CNY", Json.num 7)])]))) =
      some (Json.obj [("CNY", Json.num 7)]) := rfl

/-- Claim C5 amended: the fetcher never lets an exception propagate past
its own boundary — it is a total function of the observed HTTP outcome.
It returns the failure signal `none` on a network error, on any status
in 400-599 (the range `raise_for_status` raises for), on a body that is
not valid JSON, and on a JSON body that is not an object; for every
other status (including unusual ones outside 400-599) it returns the
nested `rates` object (the empty object when the key is absent). -/
theorem C5_fetcher_range_amended :
    get_exchange_rates HttpWorld.netError = none ∧
    (∀ status body, 400 ≤ status → status < 600 →
      get_exchange_rates (HttpWorld.response status body) = none) ∧
    (∀ status, ¬ (400 ≤ status ∧ status < 600) →
      get_exchange_rates (HttpWorld.response status none) = none) ∧
    (∀ status data, ¬ (400 ≤ status ∧ status < 600) →
      (∀ fields, data ≠ Json.obj fields) →
      get_exchange_rates (HttpWorld.response status (some data)) = none) ∧
    (∀ status fields, ¬ (400 ≤ status ∧ status < 600) →
      get_exchange_rates (HttpWorld.response status (some (Json.obj fields))) =
        some ((fields.lookup "rates").getD (Json.obj []))) := by
  refine ⟨rfl, ?_, ?_, ?_, ?_⟩
  · intro status body h1 h2
    simp only [get_exchange_rates]
    rw [if_pos ⟨h1, h2⟩]
  · intro status hn
    simp only [get_exchange_rates]
    rw [if_neg hn]
  · intro status data hn hobj
    simp only [get_exchange_rates]
    rw [if_neg hn]
    show jsonGetRates data = none
    cases data
    on_goal 6 => exact absurd rfl (hobj _)
    all_goals rfl
  · intro status fields hn
    simp only [get_exchange_rates]
    rw [if_neg hn]
    rfl

/-- Witness for the amended C5 at concrete HTTP outcomes: a network
error, a 404 and a 599 status, a malformed body, a non-object body, and
successful responses (status 200 and status 999) with a nested rates
object. -/
theorem C5_fetcher_range_amended_witness :
    get_exchange_rates HttpWorld.netError = none ∧
    get_exchange_rates (HttpWorld.response 404 (some (Json.obj []))) = none ∧
    get_exchange_rates (HttpWorld.response 599 (some (Json.obj []))) = none ∧
    get_exchange_rates (HttpWorld.response 200 none) = none ∧
    get_exchange_rates (HttpWorld.response 200 (some (Json.arr []))) = none ∧
    get_exchange_rates (HttpWorld.response 200
        (some (Json.obj [("rates", Json.obj [("CNY", Json.num 7)])]))) =
      some (Json.obj [("CNY", Json.num 7)]) ∧
    get_exchange_rates (HttpWorld.response 999
        (some (Json.obj [("rates", Json.obj [("EUR", Json.num 1)])]))) =
      some (Json.obj [("EUR", Json.num 1)]) :=
  ⟨C5_fetcher_range_amended.1,
   C5_fetcher_range_amended.2.1 404 _ (by norm_num) (by norm_num),
   C5_fetcher_range_amended.2.1 599 _ (by norm_num) (by norm_num),
   C5_fetcher_range_amended.2.2.1 200 (by omega),
   C5_fetcher_range_amended.2.2.2.1 200 _ (by omega) (fun _ h => nomatch h),
   C5_fetcher_range_amended.2.2.2.2 200 _ (by omega),
   C5_fetcher_range_amended.2.2.2.2 999 _ (by omega)⟩

/-- Claim C7: the formatter emits the header followed by exactly one
block per catalog entry, concatenated in the catalog's fixed display
order (CNY, KZT, RUB, UAH, EUR, GBP); and the output is independent of
the snapshot's key order — any two snapshots with the same lookup
function produce the same message. -/
theorem C7_catalog_order (rates rates₂ : RateSnapshot) (now : String)
    (h : ∀ c, lookupRate rates c = lookupRate rates₂ c) :
    buildRatesMessage rates now =
      headerLine now ++
        concatMap (fun e => entryBlock rates e.1 e.2) CURRENCIES ∧
    buildRatesMessage rates now = buildRatesMessage rates₂ now :=
  ⟨buildRatesMessage_eq_concatMap rates now, buildRatesMessage_ext now h⟩

/-- Witness for C7: two concrete snapshots holding the same rates with
the CNY and EUR keys in opposite orders format to the same message. -/
theorem C7_catalog_order_witness :
    buildRatesMessage [("CNY", mkRat 71234 10000), ("EUR", mkRat 9 10)]
        "07.10.2025 14:00" =
      buildRatesMessage [("EUR", mkRat 9 10), ("CNY", mkRat 71234 10000)]
        "07.10.2025 14:00" :=
  (C7_catalog_order _ _ "07.10.2025 14:00" (by
    intro c
    by_cases h1 : c = "CNY"
    · subst h1; decide
    · by_cases h2 : c = "EUR"
      · subst h2; decide
      · have e1 : (c == "CNY") = false := beq_eq_false_iff_ne.mpr h1
        have e2 : (c == "EUR") = false := beq_eq_false_iff_ne.mpr h2
        simp [lookupRate, List.lookup, e1, e2])).2

/-- Claim C8: `/start` and `/help` each perform no network I/O and each
produce exactly one outbound reply; the `/start` reply is the greeting
containing the caller's first name, and the `/help` reply is static
(identical for all callers). -/
theorem C8_start_help (u v : User) :
    start u = [Effect.sendText (welcomeText u)] ∧
    (sends (start u)).length = 1 ∧
    (∀ e ∈ start u, ∀ url, e ≠ Effect.httpGet url) ∧
    containsStr (welcomeText u) u.first_name ∧
    help_command u = [Effect.sendHtml helpText] ∧
    (sends (help_command u)).length = 1 ∧
    (∀ e ∈ help_command u, ∀ url, e ≠ Effect.httpGet url) ∧
    help_command u = help_command v := by
  refine ⟨rfl, rfl, ?_, ?_, rfl, rfl, ?_, rfl⟩
  · intro e he url
    rcases List.mem_singleton.mp he with rfl
    exact fun h => Effect.noConfusion h
  · rw [welcomeText]
    exact containsStr_append_right _ (containsStr_append_right _
      (containsStr_append_right _ (containsStr_append_right _
        (containsStr_append_right _
          (containsStr_right_self "Привет, " u.first_name)))))
  · intro e he url
    rcases List.mem_singleton.mp he with rfl
    exact fun h => Effect.noConfusion h

/-- Witness for C8 at two concrete callers: the single replies, the
greeting containing the first name, the reply not being a network call,
and `/help` ignoring the caller. -/
theorem C8_start_help_witness :
    start ⟨"Алиса"⟩ = [Effect.sendText (welcomeText ⟨"Алиса"⟩)] ∧
    containsStr (welcomeText ⟨"Алиса"⟩) "Алиса" ∧
    Effect.sendText (welcomeText ⟨"Алиса"⟩) ≠ Effect.httpGet apiUrl ∧
    help_command ⟨"Алиса"⟩ = help_command ⟨"Боб"⟩ :=
  ⟨(C8_start_help ⟨"Алиса"⟩ ⟨"Боб"⟩).1,
   (C8_start_help ⟨"Алиса"⟩ ⟨"Боб"⟩).2.2.2.1,
   (C8_start_help ⟨"Алиса"⟩ ⟨"Боб"⟩).2.2.1 _ (List.mem_singleton.mpr rfl) apiUrl,
   (C8_start_help ⟨"Алиса"⟩ ⟨"Боб"⟩).2.2.2.2.2.2.2⟩

/-- Claim C10: the table-building step is deterministic — it depends
only on the snapshot's lookup function, the static catalog, and the
timestamp, so two executions with extensionally equal snapshots and the
same timestamp produce character-for-character identical text. -/
theorem C10_table_deterministic (rates₁ rates₂ : RateSnapshot)
    (now₁ now₂ : String) (hr : ∀ c, lookupRate rates₁ c = lookupRate rates₂ c)
    (hn : now₁ = now₂) :
    buildRatesMessage rates₁ now₁ = buildRatesMessage rates₂ now₂ := by
  subst hn
  exact buildRatesMessage_ext now₁ hr

/-- Witness for C10: two executions over permuted two-entry snapshots
(EUR and GBP) with the same timestamp yield the same message. -/
theorem C10_table_deterministic_witness :
    buildRatesMessage [("EUR", mkRat 9 10), ("GBP", mkRat 3 4)]
        "08.10.2025 09:30" =
      buildRatesMessage [("GBP", mkRat 3 4), ("EUR", mkRat 9 10)]
        "08.10.2025 09:30" :=
  C10_table_deterministic _ _ _ _ (by
    intro c
    by_cases h1 : c = "EUR"
    · subst h1; decide
    · by_cases h2 : c = "GBP"
      · subst h2; decide
      · have e1 : (c == "EUR") = false := beq_eq_false_iff_ne.mpr h1
        have e2 : (c == "GBP") = false := beq_eq_false_iff_ne.mpr h2
        simp [lookupRate, List.lookup, e1, e2]) rfl

/-- Claim C1 as stated is false: when the fetch succeeds with an empty
rate snapshot, `if not rates:` treats the empty dict as falsy, so the
handler sends the fetch-failure apology and sends no formatted table at
all (no HTML reply is produced). -/
theorem C1_claim_false :
    Effect.sendText apologyText ∈ rates_command (some []) "07.10.2025 12:00" ∧
    (rates_command (some []) "07.10.2025 12:00").all
      (fun e => !Effect.isHtml e) = true := by
  decide

/-- Claim C1 amended: an empty snapshot is handled exactly like a fetch
failure — acknowledgment then apology, no table. The all-unavailable
table with its header is produced only for a nonempty snapshot; when a
nonempty snapshot contains none of the catalog codes, the reply carries
the header line and an unavailable line for every catalog entry, and
the apology is not sent. -/
theorem C1_empty_snapshot_amended (now : String) (rates : RateSnapshot)
    (hne : rates ≠ [])
    (habs : ∀ e ∈ CURRENCIES, lookupRate rates e.1 = none) :
    rates_command (some []) now =
      [Effect.sendText ackText, Effect.httpGet apiUrl,
       Effect.sendText apologyText] ∧
    rates_command (some rates) now =
      [Effect.sendText ackText, Effect.httpGet apiUrl,
       Effect.sendHtml (buildRatesMessage rates now)] ∧
    containsStr (buildRatesMessage rates now) (headerLine now) ∧
    (∀ e ∈ CURRENCIES,
      containsStr (buildRatesMessage rates now) (unavailableBlock e.2)) ∧
    Effect.sendText apologyText ∉ rates_command (some rates) now := by
  have h2 : rates_command (some rates) now =
      [Effect.sendText ackText, Effect.httpGet apiUrl,
       Effect.sendHtml (buildRatesMessage rates now)] := by
    cases rates with
    | nil => exact absurd rfl hne
    | cons p rest => rfl
  refine ⟨rfl, h2, headerLine_containsStr rates now, ?_, ?_⟩
  · intro e he
    have hb := entryBlock_containsStr rates now he
    rwa [entryBlock_of_none e.2 (habs e he)] at hb
  · rw [h2]
    intro hmem
    rcases List.mem_cons.mp hmem with h | hmem
    · exact absurd (Effect.sendText.inj h) (by decide)
    rcases List.mem_cons.mp hmem with h | hmem
    · exact Effect.noConfusion h
    rcases List.mem_cons.mp hmem with h | hmem
    · exact Effect.noConfusion h
    · exact List.not_mem_nil _ hmem

/-- Witness for the amended C1 at a concrete nonempty snapshot holding
only a non-catalog code: the empty-snapshot invocation replies with the
apology, while the nonempty all-absent snapshot yields a table with an
unavailable line for the CNY entry. -/
theorem C1_empty_snapshot_amended_witness :
    rates_command (some []) "07.10.2025 18:00" =
      [Effect.sendText ackText, Effect.httpGet apiUrl,
       Effect.sendText apologyText] ∧
    containsStr
      (buildRatesMessage [("AED", (1 : ℚ))] "07.10.2025 18:00")
      (unavailableBlock ⟨"Китайский юань", "🇨🇳"⟩) :=
  ⟨(C1_empty_snapshot_amended "07.10.2025 18:00" [("AED", (1 : ℚ))]
      (by decide) (by decide)).1,
   (C1_empty_snapshot_amended "07.10.2025 18:00" [("AED", (1 : ℚ))]
      (by decide) (by decide)).2.2.2.1 ("CNY", ⟨"Китайский юань", "🇨🇳"⟩)
      (by decide)⟩

/-- Claim C2 as stated is false: a catalog code present in the snapshot
with rate 0 is falsy under `if rate:`, so it is rendered as unavailable
and no 4-decimal rate line for it appears. -/
theorem C2_claim_false :
    lookupRate [("CNY", (0 : ℚ))] "CNY" = some 0 ∧
    ¬ containsStr (buildRatesMessage [("CNY", (0 : ℚ))] "07.10.2025 12:00")
        "1 USD = 0.0000 CNY" ∧
    containsStr (buildRatesMessage [("CNY", (0 : ℚ))] "07.10.2025 12:00")
      "🇨🇳 Китайский юань: данные недоступны" := by
  decide

/-- Claim C2 amended: for every catalog entry whose code is present in
the snapshot with a nonzero rate, the output contains that entry's
block — flag, bold name, and `1 USD = <rate> <code>` — and the rendered
rate has exactly four digits after the decimal point. -/
theorem C2_present_rate_line_amended (rates : RateSnapshot)
    (now code : String) (info : CurrencyInfo) (q : ℚ)
    (hmem : (code, info) ∈ CURRENCIES)
    (hq : lookupRate rates code = some q) (hq0 : q ≠ 0) :
    containsStr (buildRatesMessage rates now)
      (info.flag ++ " <b>" ++ info.name ++ "</b>\n1 USD = " ++ formatRate q ++
        " " ++ code ++ "\n\n") ∧
    ∃ intPart frac, formatRate q = intPart ++ "." ++ frac ∧
      frac.length = 4 := by
  constructor
  · have hb := entryBlock_containsStr rates now hmem
    rwa [entryBlock_of_some info hq hq0] at hb
  · exact ⟨(if q.num < 0 then "-" else "") ++
      natToString (roundHalfEvenNat (q.num.natAbs * 10000) q.den / 10000),
      pad4 (roundHalfEvenNat (q.num.natAbs * 10000) q.den % 10000),
      rfl, rfl⟩

/-- Witness for the amended C2: the CNY entry with the concrete rate 7
yields its formatted block in the message. -/
theorem C2_present_rate_line_amended_witness :
    containsStr
      (buildRatesMessage [("CNY", (7 : ℚ))] "07.10.2025 15:00")
      ((⟨"Китайский юань", "🇨🇳"⟩ : CurrencyInfo).flag ++ " <b>" ++
        (⟨"Китайский юань", "🇨🇳"⟩ : CurrencyInfo).name ++
        "</b>\n1 USD = " ++ formatRate (7 : ℚ) ++ " " ++ "CNY" ++ "\n\n") :=
  (C2_present_rate_line_amended [("CNY", (7 : ℚ))] "07.10.2025 15:00" "CNY"
    ⟨"Китайский юань", "🇨🇳"⟩ (7 : ℚ) (by decide) (by decide) (by decide)).1

/-- Claim C3 as stated is false: a successful fetch that returns an
empty snapshot produces the acknowledgment followed by the apology, not
the formatted table, and no HTML reply is produced. -/
theorem C3_claim_false :
    sends (rates_command (some []) "01.01.2025 00:00") =
      [Effect.sendText ackText, Effect.sendText apologyText] ∧
    (rates_command (some []) "01.01.2025 00:00").all
      (fun e => !Effect.isHtml e) = true := by
  decide

/-- Claim C3 amended: every invocation of `/rates` produces exactly two
outbound messages; when the fetch fails or returns an empty snapshot
they are the acknowledgment and the apology, and the formatter's output
is never sent; when the fetch succeeds with a nonempty snapshot they are
the acknowledgment and the formatted table. -/
theorem C3_two_replies_amended (fetchRes : Option RateSnapshot)
    (now : String) :
    (sends (rates_command fetchRes now)).length = 2 ∧
    ((fetchRes = none ∨ fetchRes = some []) →
      sends (rates_command fetchRes now) =
        [Effect.sendText ackText, Effect.sendText apologyText] ∧
      ∀ e ∈ rates_command fetchRes now, Effect.isHtml e = false) ∧
    (∀ rates, fetchRes = some rates → rates ≠ [] →
      sends (rates_command fetchRes now) =
        [Effect.sendText ackText,
         Effect.sendHtml (buildRatesMessage rates now)]) := by
  rcases fetchRes with _ | (_ | ⟨p, rest⟩)
  · refine ⟨rfl, fun _ => ⟨rfl, ?_⟩, fun rates h => absurd h ?_⟩
    · intro e he
      rcases List.mem_cons.mp he with rfl | he
      · rfl
      rcases List.mem_cons.mp he with rfl | he
      · rfl
      rcases List.mem_cons.mp he with rfl | he
      · rfl
      · exact absurd he (List.not_mem_nil e)
    · exact fun hh => Option.noConfusion hh
  · refine ⟨rfl, fun _ => ⟨rfl, ?_⟩, fun rates h hne => ?_⟩
    · intro e he
      rcases List.mem_cons.mp he with rfl | he
      · rfl
      rcases List.mem_cons.mp he with rfl | he
      · rfl
      rcases List.mem_cons.mp he with rfl | he
      · rfl
      · exact absurd he (List.not_mem_nil e)
    · exact absurd (Option.some.inj h).symm hne
  · refine ⟨rfl, fun h => ?_, fun rates h hne => ?_⟩
    · rcases h with h | h
      · exact Option.noConfusion h
      · exact List.noConfusion (Option.some.inj h)
    · obtain rfl : rates = p :: rest := (Option.some.inj h).symm
      rfl

/-- Witness for the amended C3: a failed fetch gives ack + apology and a
successful nonempty fetch gives ack + table, two replies each. -/
theorem C3_two_replies_amended_witness :
    (sends (rates_command none "02.01.2025 00:00")).length = 2 ∧
    sends (rates_command none "02.01.2025 00:00") =
      [Effect.sendText ackText, Effect.sendText apologyText] ∧
    sends (rates_command (some [("CNY", (7 : ℚ))]) "02.01.2025 00:00") =
      [Effect.sendText ackText,
       Effect.sendHtml
        (buildRatesMessage [("CNY", (7 : ℚ))] "02.01.2025 00:00")] :=
  ⟨(C3_two_replies_amended none "02.01.2025 00:00").1,
   ((C3_two_replies_amended none "02.01.2025 00:00").2.1 (Or.inl rfl)).1,
   (C3_two_replies_amended (some [("CNY", (7 : ℚ))]) "02.01.2025 00:00").2.2
     [("CNY", (7 : ℚ))] rfl (by simp)⟩

/-- Claim C6 as stated is false for a token that is present but empty:
`if not token:` treats the empty string as falsy, so startup aborts even
though the environment variable is present. -/
theorem C6_claim_false :
    main (some "") = Except.error tokenErrorMsg ∧
    main (some "") ≠
      Except.ok { handlers := ["start", "help", "rates"],
                  pollingStarted := true } :=
  ⟨rfl, fun h => Except.noConfusion h⟩

/-- Claim C6 amended: when the token is absent or empty, startup aborts
with the descriptive error before any handler is registered and before
polling starts; when the token is present and nonempty, all three
command handlers are registered (in order start, help, rates) and the
polling loop is entered. -/
theorem C6_token_gate_amended (token : Option String) :
    ((token = none ∨ token = some "") →
      main token = Except.error tokenErrorMsg) ∧
    (∀ t, token = some t → t ≠ "" →
      main token = Except.ok { handlers := ["start", "help", "rates"],
                               pollingStarted := true }) := by
  constructor
  · rintro (rfl | rfl)
    · rfl
    · rfl
  · rintro t rfl hne
    have hie : t.isEmpty = false := by
      cases hb : t.isEmpty
      · rfl
      · exact absurd ((String.isEmpty_iff t).mp hb) hne
    simp [main, hie]

/-- Witness for the amended C6: a missing token aborts startup with the
error, and a concrete nonempty token reaches the polling loop with the
three handlers registered. -/
theorem C6_token_gate_amended_witness :
    main none = Except.error tokenErrorMsg ∧
    main (some "123:abc") =
      Except.ok { handlers := ["start", "help", "rates"],
                  pollingStarted := true } :=
  ⟨(C6_token_gate_amended none).1 (Or.inl rfl),
   (C6_token_gate_amended (some "123:abc")).2 "123:abc" rfl (by decide)⟩

/-- Claim C9 as stated is false: a currency name on an unavailable line
is rendered without bold markup — with only CNY in the snapshot, the
KZT name appears in the reply but never wrapped in a bold tag. -/
theorem C9_claim_false :
    containsStr
      (buildRatesMessage [("CNY", mkRat 71234 10000)] "07.10.2025 13:00")
      "Казахстанский тенге" ∧
    ¬ containsStr
        (buildRatesMessage [("CNY", mkRat 71234 10000)] "07.10.2025 13:00")
        "<b>Казахстанский тенге</b>" := by
  decide

/-- Claim C9 amended: bold markup is applied to the header line and to
the name of every entry whose rate is available; entries rendered as
unavailable carry no markup at all (their lines contain no angle
brackets beyond none — the unavailable block for every catalog entry
contains no tag characters); and no markup is applied to numeric rate
values (the rendered rate contains no tag characters). -/
theorem C9_markup_amended (rates : RateSnapshot) (now : String) :
    containsStr (buildRatesMessage rates now)
      "<b>Курс доллара США (USD)</b>" ∧
    (∀ code info q, (code, info) ∈ CURRENCIES →
      lookupRate rates code = some q → q ≠ 0 →
      containsStr (buildRatesMessage rates now)
        ("<b>" ++ (info.name ++ "</b>"))) ∧
    (∀ code info, (code, info) ∈ CURRENCIES → lookupRate rates code = none →
      containsStr (buildRatesMessage rates now) (unavailableBlock info)) ∧
    (∀ e ∈ CURRENCIES,
      ∀ c ∈ (unavailableBlock e.2).data, c ≠ '<' ∧ c ≠ '>') ∧
    (∀ q : ℚ, ∀ c ∈ (formatRate q).data, c ≠ '<' ∧ c ≠ '>') := by
  refine ⟨?_, ?_, ?_, by decide, fun q => formatRate_chars q⟩
  · exact containsStr_trans (headerLine_containsStr rates now)
      (headerLine_bold now)
  · intro code info q hmem hq hq0
    have hb := entryBlock_containsStr rates now hmem
    rw [entryBlock_of_some info hq hq0] at hb
    exact containsStr_trans hb (availableBlock_bold_name code info q)
  · intro code info hmem hnone
    have hb := entryBlock_containsStr rates now hmem
    rwa [entryBlock_of_none info hnone] at hb

/-- Witness for the amended C9 at a one-entry snapshot: the bold header,
the bold EUR name, and the unavailable GBP block all occur in the
concrete reply. -/
theorem C9_markup_amended_witness :
    containsStr (buildRatesMessage [("EUR", (2 : ℚ))] "07.10.2025 16:00")
      "<b>Курс доллара США (USD)</b>" ∧
    containsStr (buildRatesMessage [("EUR", (2 : ℚ))] "07.10.2025 16:00")
      ("<b>" ++ (("Евро" : String) ++ "</b>")) ∧
    containsStr (buildRatesMessage [("EUR", (2 : ℚ))] "07.10.2025 16:00")
      (unavailableBlock ⟨"Британский фунт", "🇬🇧"⟩) :=
  ⟨(C9_markup_amended [("EUR", (2 : ℚ))] "07.10.2025 16:00").1,
   (C9_markup_amended [("EUR", (2 : ℚ))] "07.10.2025 16:00").2.1 "EUR"
     ⟨"Евро", "🇪🇺"⟩ (2 : ℚ) (by decide) (by decide) (by decide),
   (C9_markup_amended [("EUR", (2 : ℚ))] "07.10.2025 16:00").2.2.1 "GBP"
     ⟨"Британский фунт", "🇬🇧"⟩ (by decide) (by decide)⟩

end CurrencyBot
